import Mathlib

/-!
Shallow embedding of the configuration-validation engine of the
`gitlab-homelab` repository: `src/validation_result.py` and
`src/configs/validation/validate_config.py`.

Modelling notes:
* Machine-level concerns are absent: the Python code manipulates lists,
  strings, dictionaries and small integers only.
* The jsonschema library (`Draft7Validator.iter_errors`) is external to the
  repository; its output — a finite sequence of validation errors, each
  carrying an instance path and a message — is abstracted as a
  `List Violation` parameter in whatever iteration order the library uses.
* `validate_config.py` contains a stray `try:` with no handler
  (lines 113–117, an obvious editing slip); the embedding follows the
  evident straight-line control flow of the function body.
-/

/-- `ConfigType` enum from `validation_result.py`. -/
inductive ConfigType where
  | network
  | email
  | domains
  | sso
deriving DecidableEq

/-- The `.value` string of each `ConfigType` member. -/
def ConfigType.value : ConfigType → String
  | .network => "network"
  | .email => "email"
  | .domains => "domains"
  | .sso => "sso"

/-- `ValidationStatus` enum from `validation_result.py`. -/
inductive ValidationStatus where
  | valid
  | invalid
  | pending
deriving DecidableEq

/-- The `ValidationResult` record from `validation_result.py`. -/
structure ValidationResult where
  config_type : ConfigType
  status : ValidationStatus
  errors : List String
  security_warnings : List String
  config_path : String
deriving DecidableEq

/-- `ValidationResult.__init__` as called by the pipeline: status defaults to
`PENDING`, both message lists default to empty. -/
def ValidationResult.init (config_type : ConfigType) (config_path : String) :
    ValidationResult :=
  { config_type := config_type
    status := ValidationStatus.pending
    errors := []
    security_warnings := []
    config_path := config_path }

/-- `ValidationResult.add_error`: append the message and set status INVALID. -/
def ValidationResult.add_error (r : ValidationResult) (error : String) :
    ValidationResult :=
  { r with errors := r.errors ++ [error], status := ValidationStatus.invalid }

/-- `ValidationResult.add_security_warning`: append the warning message. -/
def ValidationResult.add_security_warning (r : ValidationResult) (warning : String) :
    ValidationResult :=
  { r with security_warnings := r.security_warnings ++ [warning] }

/-- `ValidationResult.is_valid`: status equals VALID. -/
def ValidationResult.is_valid (r : ValidationResult) : Bool :=
  r.status = ValidationStatus.valid

/-- `ValidationResult.mark_as_valid`: set status VALID (unconditionally). -/
def ValidationResult.mark_as_valid (r : ValidationResult) : ValidationResult :=
  { r with status := ValidationStatus.valid }

/-- One segment of a jsonschema error path (`error.path` is a deque whose
elements are dict keys — strings — or array indices — integers). -/
inductive PathSeg where
  | str (s : String)
  | idx (n : Nat)
deriving DecidableEq

/-- Python `str(p)` on a path segment. -/
def PathSeg.toStr : PathSeg → String
  | .str s => s
  | .idx n => toString n

/-- Python `<` on two path segments of the same kind (code-point order on
strings, numeric order on indices). Within a single instance document two
paths that first differ at position `k` index the same container there, so
the segments compared are always of the same kind; the cross-kind case (on
which Python would raise `TypeError`) is completed arbitrarily by
`idx < str` to keep the order total. -/
def PathSeg.lt : PathSeg → PathSeg → Bool
  | .str a, .str b => decide (a < b)
  | .idx a, .idx b => decide (a < b)
  | .idx _, .str _ => true
  | .str _, .idx _ => false

/-- Python `<` on path-segment sequences: lexicographic, element-wise, a
shorter sequence sorting before a longer one sharing its prefix (this is
exactly Python list/deque comparison). -/
def pathLt : List PathSeg → List PathSeg → Bool
  | [], [] => false
  | [], _ :: _ => true
  | _ :: _, [] => false
  | a :: as, b :: bs => PathSeg.lt a b || (a = b && pathLt as bs)

/-- Non-strict path comparison `p ≤ q`, i.e. `not (q < p)`; this is the order
under which Python `sorted(..., key=lambda e: e.path)` arranges its output. -/
def pathLe (p q : List PathSeg) : Bool :=
  !(pathLt q p)

/-- A single jsonschema validation error: its instance path and message. -/
structure Violation where
  path : List PathSeg
  message : String
deriving DecidableEq

/-- Stable insertion of a violation into a path-sorted list: `a` goes in
front of the first element `b` with `a.path ≤ b.path`. -/
def orderedInsertViolation (a : Violation) : List Violation → List Violation
  | [] => [a]
  | b :: bs =>
    if pathLe a.path b.path then a :: b :: bs else b :: orderedInsertViolation a bs

/-- `ConfigSchemaValidator.validate`:
`sorted(self.validator.iter_errors(config), key=lambda e: e.path)`.
`raw` stands for the errors in the library's iteration order. Python's
`sorted` is a stable sort by the key order `pathLe`; a stable sort by a total
preorder is unique, so it is modelled by a stable insertion sort. -/
def ConfigSchemaValidator.validate (raw : List Violation) : List Violation :=
  raw.foldr orderedInsertViolation []

/-- Rendering of one violation inside `validate_config`:
`"Error at " + ' -> '.join(str(p) for p in error.path) + ": " + error.message`. -/
def render_error (e : Violation) : String :=
  "Error at " ++ String.intercalate " -> " (e.path.map PathSeg.toStr) ++ ": " ++ e.message

/-- `validate_config(config, schema, config_type, config_path)`. The schema
lookup and the jsonschema engine are abstracted into `raw`, the error
sequence the library yields for this config; the function builds a fresh
result, adds one rendered error per sorted violation, and marks the result
valid when there are none. -/
def validate_config (raw : List Violation) (config_type : ConfigType)
    (config_path : String) : ValidationResult :=
  let result := ValidationResult.init config_type config_path
  let errors := ConfigSchemaValidator.validate raw
  let result := errors.foldl (fun r e => r.add_error (render_error e)) result
  if errors.isEmpty then result.mark_as_valid else result

/-- The sequence of mutating operations `validate_config` performs on its
result after construction: one `add_error` per sorted violation, then
`mark_as_valid` when the violation list is empty. -/
def validate_ops (raw : List Violation) : List (ValidationResult → ValidationResult) :=
  let errors := ConfigSchemaValidator.validate raw
  (errors.map fun e => fun r => r.add_error (render_error e)) ++
    (if errors.isEmpty then [ValidationResult.mark_as_valid] else [])

/-- All intermediate states of a result under a sequence of operations,
starting state included. -/
def run_states : List (ValidationResult → ValidationResult) → ValidationResult →
    List ValidationResult
  | [], r => [r]
  | f :: fs, r => r :: run_states fs (f r)

/-- In-memory value of a parsed YAML/JSON document, as Python represents it
(`None`, `bool`, number, string, list, dict). Numbers are modelled as
integers; the configs the engine reads use integral numbers only. -/
inductive JValue where
  | null
  | bool (b : Bool)
  | num (n : Int)
  | str (s : String)
  | arr (xs : List JValue)
  | obj (fields : List (String × JValue))

/-- Python dict `.get(key)` — `none` models the Python `None` default, and a
non-dict receiver (on which Python would raise) also yields `none`; every
call site in the source reaches this only with dict-shaped receivers. Keys
of a parsed mapping are unique, so first-match lookup is exact. -/
def JValue.get_opt : JValue → String → Option JValue
  | .obj fields, key => fields.lookup key
  | _, _ => none

/-- Python dict `.get(key, default)`. -/
def JValue.get_d (v : JValue) (key : String) (default : JValue) : JValue :=
  (v.get_opt key).getD default

/-- Python dict `.values()` (empty on a non-dict, which the source never
reaches). -/
def JValue.values : JValue → List JValue
  | .obj fields => fields.map Prod.snd
  | _ => []

/-- Python truthiness of a value: `None`, `False`, `0`, `""`, `[]`, `{}` are
falsy, everything else truthy. -/
def JValue.truthy : JValue → Bool
  | .null => false
  | .bool b => b
  | .num n => !(n = 0)
  | .str s => !(s = "")
  | .arr xs => !xs.isEmpty
  | .obj fields => !fields.isEmpty

/-- Truthiness of an optional value (`none` is Python `None`, falsy). -/
def truthy_opt : Option JValue → Bool
  | none => false
  | some v => v.truthy

/-- Python `x == "lit"` where `x` came from a dict `.get`: true exactly when
`x` is that string (any non-string, including `None`, compares unequal). -/
def opt_eq_str : Option JValue → String → Bool
  | some (.str s), lit => s = lit
  | _, _ => false

mutual

/-- Python `repr` of a parsed value, as it appears inside containers
(string escaping inside `repr` of a str is not modelled; no warning
condition depends on it). -/
def pyRepr : JValue → String
  | .null => "None"
  | .bool true => "True"
  | .bool false => "False"
  | .num n => toString n
  | .str s => "\x27" ++ s ++ "\x27"
  | .arr xs => "[" ++ pyReprList xs ++ "]"
  | .obj fields => "\x7b" ++ pyReprFields fields ++ "\x7d"

/-- Comma-separated `repr`s of list elements. -/
def pyReprList : List JValue → String
  | [] => ""
  | [v] => pyRepr v
  | v :: vs => pyRepr v ++ ", " ++ pyReprList vs

/-- Comma-separated `'key': repr(value)` pairs of a dict. -/
def pyReprFields : List (String × JValue) → String
  | [] => ""
  | [kv] => "\x27" ++ kv.1 ++ "\x27: " ++ pyRepr kv.2
  | kv :: kvs => "\x27" ++ kv.1 ++ "\x27: " ++ pyRepr kv.2 ++ ", " ++ pyReprFields kvs

end

/-- Python `str` of a parsed value: a string prints bare at top level,
everything else as its `repr`. -/
def pyStr : JValue → String
  | .str s => s
  | v => pyRepr v

/-- `pat` occurs as a contiguous run inside `cs` (Python `pat in s`). -/
def charsContain (pat : List Char) : List Char → Bool
  | [] => pat.isEmpty
  | c :: cs => pat.isPrefixOf (c :: cs) || charsContain pat cs

/-- Python `pat in hay` on strings. -/
def strContains (hay pat : String) : Bool :=
  charsContain pat.data hay.data

/-- `check_security_requirements(config, result)`: the per-type security
checks, each `add_security_warning` call mutating the result in order. -/
def check_security_requirements (config : JValue) (result : ValidationResult) :
    ValidationResult :=
  let config_type := result.config_type.value
  if config_type = "network" then
    if (config.values).any (fun v => strContains (pyStr v) "0.0.0.0/0") then
      result.add_security_warning "Found overly permissive CIDR block (0.0.0.0/0)"
    else result
  else if config_type = "email" then
    let smtp := config.get_d "smtp" (JValue.obj [])
    if opt_eq_str (smtp.get_opt "encryption") "none" then
      result.add_security_warning "SMTP is configured without encryption"
    else result
  else if config_type = "domains" then
    let ssl := config.get_d "ssl" (JValue.obj [])
    let result :=
      if truthy_opt (ssl.get_opt "hsts_enabled") then result
      else result.add_security_warning "HSTS is not enabled"
    if truthy_opt (ssl.get_opt "ocsp_stapling") then result
    else result.add_security_warning "OCSP stapling is not enabled"
  else if config_type = "sso" then
    let auth := config.get_d "authentication" (JValue.obj [])
    let result :=
      if truthy_opt ((auth.get_d "mfa" (JValue.obj [])).get_opt "enabled") then result
      else result.add_security_warning "MFA is not enabled for SSO"
    let session := auth.get_d "session" (JValue.obj [])
    if (match session.get_d "lifetime" (JValue.num 0) with
        | .num n => decide (86400 < n)
        | _ => false) then
      result.add_security_warning "Session lifetime exceeds 24 hours"
    else result
  else result

/-- The warnings `check_security_requirements` emits for a given config type
and config value, in emission order (a pure restatement of the same
conditions, used to state frame properties of the check). -/
def security_warnings_for (config_type : ConfigType) (config : JValue) :
    List String :=
  match config_type with
  | .network =>
    if (config.values).any (fun v => strContains (pyStr v) "0.0.0.0/0") then
      ["Found overly permissive CIDR block (0.0.0.0/0)"]
    else []
  | .email =>
    let smtp := config.get_d "smtp" (JValue.obj [])
    if opt_eq_str (smtp.get_opt "encryption") "none" then
      ["SMTP is configured without encryption"]
    else []
  | .domains =>
    let ssl := config.get_d "ssl" (JValue.obj [])
    (if truthy_opt (ssl.get_opt "hsts_enabled") then []
     else ["HSTS is not enabled"]) ++
    (if truthy_opt (ssl.get_opt "ocsp_stapling") then []
     else ["OCSP stapling is not enabled"])
  | .sso =>
    let auth := config.get_d "authentication" (JValue.obj [])
    (if truthy_opt ((auth.get_d "mfa" (JValue.obj [])).get_opt "enabled") then []
     else ["MFA is not enabled for SSO"]) ++
    (let session := auth.get_d "session" (JValue.obj [])
     if (match session.get_d "lifetime" (JValue.num 0) with
         | .num n => decide (86400 < n)
         | _ => false) then
       ["Session lifetime exceeds 24 hours"]
     else [])

/-- State of the configuration template file for one type, as `main`
observes it: absent, present but not parseable as YAML, or parsed into a
value. -/
inductive FileState where
  | missing
  | malformed
  | parsed (cfg : JValue)

/-- Whether a file state is the malformed one. -/
def FileState.is_malformed : FileState → Bool
  | .malformed => true
  | _ => false

/-- Outcome of a run of `main`: the `sys.exit` code, the
`validation_results` list accumulated when the exit happened, and whether
the exit came from inside `load_yaml_config` (aborting the loop) rather
than from the final summary line. -/
structure RunOutcome where
  exit_code : Nat
  results : List ValidationResult
  aborted : Bool
deriving DecidableEq

/-- The fixed iteration order of `main`. -/
def config_types : List ConfigType :=
  [ConfigType.network, ConfigType.email, ConfigType.domains, ConfigType.sso]

/-- `config_dir / 'templates' / f'{config_type}.yaml.template'`. -/
def template_path (config_dir : String) (t : ConfigType) : String :=
  config_dir ++ "/templates/" ++ t.value ++ ".yaml.template"

/-- Processing of one present-and-parsed config inside `main`'s loop:
`validate_config` then `check_security_requirements` on the same result.
`V` abstracts the jsonschema engine: the raw error sequence it yields for a
given type's schema definition and config value. -/
def process_type (V : ConfigType → JValue → List Violation) (config_dir : String)
    (t : ConfigType) (cfg : JValue) : ValidationResult :=
  check_security_requirements cfg
    (validate_config (V t cfg) t (template_path config_dir t))

/-- The loop of `main` over the remaining config types, carrying the
accumulated `validation_results`. A missing file logs and `continue`s; a
malformed file makes `load_yaml_config` call `sys.exit(1)` on the spot; at
the end of the loop `main` exits 0 iff `all(result.is_valid() ...)`. -/
def main_loop (V : ConfigType → JValue → List Violation) (config_dir : String)
    (files : ConfigType → FileState) :
    List ConfigType → List ValidationResult → RunOutcome
  | [], acc =>
    { exit_code := if acc.all ValidationResult.is_valid then 0 else 1
      results := acc
      aborted := false }
  | t :: ts, acc =>
    match files t with
    | .missing => main_loop V config_dir files ts acc
    | .malformed => { exit_code := 1, results := acc, aborted := true }
    | .parsed cfg =>
      main_loop V config_dir files ts (acc ++ [process_type V config_dir t cfg])

/-- The `main` function: validate every configured type in the fixed order
against the observed file states (named `main_run` because `main` is the
reserved program entry point). -/
def main_run (V : ConfigType → JValue → List Violation) (config_dir : String)
    (files : ConfigType → FileState) : RunOutcome :=
  main_loop V config_dir files config_types []

/-- The results the loop accumulates over a type list when no load aborts:
one processed result per parsed file, in order. -/
def processed_results (V : ConfigType → JValue → List Violation)
    (config_dir : String) (files : ConfigType → FileState)
    (ts : List ConfigType) : List ValidationResult :=
  ts.filterMap fun t =>
    match files t with
    | .parsed cfg => some (process_type V config_dir t cfg)
    | _ => none

/-- The domains config `{"ssl": {}}` of the spec's scenario 4. -/
def domains_ssl_empty : JValue :=
  JValue.obj [("ssl", JValue.obj [])]

/-- The SSO config of scenario 5: MFA enabled, session lifetime 90000. -/
def sso_lifetime_90000 : JValue :=
  JValue.obj [("authentication", JValue.obj
    [("mfa", JValue.obj [("enabled", JValue.bool true)]),
     ("session", JValue.obj [("lifetime", JValue.num 90000)])])]

/-- The SSO config of scenario 5 with lifetime 3600. -/
def sso_lifetime_3600 : JValue :=
  JValue.obj [("authentication", JValue.obj
    [("mfa", JValue.obj [("enabled", JValue.bool true)]),
     ("session", JValue.obj [("lifetime", JValue.num 3600)])])]

/-- The `lifetime` field a sso security check reads:
`config.get("authentication", {}).get("session", {}).get("lifetime")`. -/
def session_lifetime_field (config : JValue) : Option JValue :=
  ((config.get_d "authentication" (JValue.obj [])).get_d "session"
      (JValue.obj [])).get_opt "lifetime"

/-- A schema engine yielding no violation for any document (used as a
concrete instantiation of the abstracted jsonschema engine). -/
def no_violations : ConfigType → JValue → List Violation :=
  fun _ _ => []

/-- File states with the email template present but malformed and every
other template present and parsed as the empty mapping. -/
def files_email_malformed : ConfigType → FileState
  | ConfigType.email => FileState.malformed
  | _ => FileState.parsed (JValue.obj [])

/-- File states with every template missing. -/
def files_all_missing : ConfigType → FileState :=
  fun _ => FileState.missing

/-! ## Helper lemmas shared by several results -/

/-- `check_security_requirements` equals appending the type-determined
warning list to the result's warnings, all other fields untouched. -/
theorem check_security_requirements_spec (config : JValue) (r : ValidationResult) :
    check_security_requirements config r =
      { r with security_warnings :=
          r.security_warnings ++ security_warnings_for r.config_type config } := by
  rcases r with ⟨ct, st, errs, warns, path⟩
  cases ct <;>
    simp only [check_security_requirements, security_warnings_for, ConfigType.value,
      ValidationResult.add_security_warning] <;>
    (repeat' split) <;>
    simp_all

/-- Errors accumulated by the `add_error` fold of `validate_config`. -/
theorem foldl_add_error_errors (l : List Violation) (r : ValidationResult) :
    (l.foldl (fun r e => r.add_error (render_error e)) r).errors =
      r.errors ++ l.map render_error := by
  induction l generalizing r with
  | nil => simp
  | cons e es ih =>
    rw [List.foldl_cons, ih]
    simp [ValidationResult.add_error]

/-- Status after the `add_error` fold of `validate_config`. -/
theorem foldl_add_error_status (l : List Violation) (r : ValidationResult) :
    (l.foldl (fun r e => r.add_error (render_error e)) r).status =
      if l.isEmpty then r.status else ValidationStatus.invalid := by
  induction l generalizing r with
  | nil => simp
  | cons e es ih =>
    rw [List.foldl_cons, ih]
    simp [ValidationResult.add_error]

/-- The errors of a `validate_config` result are exactly the rendered
sorted violations. -/
theorem validate_config_errors (raw : List Violation) (ct : ConfigType) (p : String) :
    (validate_config raw ct p).errors =
      (ConfigSchemaValidator.validate raw).map render_error := by
  simp only [validate_config]
  split
  next h =>
    simp [ValidationResult.mark_as_valid, foldl_add_error_errors,
      ValidationResult.init, List.isEmpty_iff.mp h]
  next h =>
    simp [foldl_add_error_errors, ValidationResult.init]

/-- The status of a `validate_config` result: valid on no violations,
invalid otherwise. -/
theorem validate_config_status (raw : List Violation) (ct : ConfigType) (p : String) :
    (validate_config raw ct p).status =
      if (ConfigSchemaValidator.validate raw).isEmpty then ValidationStatus.valid
      else ValidationStatus.invalid := by
  simp only [validate_config]
  split
  next h => simp [ValidationResult.mark_as_valid, h]
  next h =>
    simp only [Bool.not_eq_true] at h
    simp [foldl_add_error_status, h]

/-- `add_error` establishes the errors/status invariant unconditionally. -/
theorem add_error_invariant (r : ValidationResult) (m : String) :
    ((r.add_error m).errors ≠ [] ↔ (r.add_error m).status = ValidationStatus.invalid) := by
  simp [ValidationResult.add_error]

/-- Every state reached through a chain of `add_error` steps keeps the
errors/status invariant. -/
theorem mem_run_states_add_error {l : List Violation} {r s : ValidationResult}
    (hr : r.errors ≠ [] ↔ r.status = ValidationStatus.invalid)
    (hs : s ∈ run_states (l.map fun e => fun r => r.add_error (render_error e)) r) :
    s.errors ≠ [] ↔ s.status = ValidationStatus.invalid := by
  induction l generalizing r with
  | nil =>
    simp [run_states] at hs
    subst hs
    exact hr
  | cons e es ih =>
    simp only [List.map_cons, run_states, List.mem_cons] at hs
    rcases hs with rfl | hs
    · exact hr
    · exact ih (add_error_invariant _ _) hs

/-- `run_states` always starts at its starting state. -/
theorem run_states_head? (ops : List (ValidationResult → ValidationResult))
    (r : ValidationResult) : (run_states ops r).head? = some r := by
  cases ops <;> simp [run_states]

/-- `run_states` is never empty. -/
theorem run_states_ne_nil (ops : List (ValidationResult → ValidationResult))
    (r : ValidationResult) : run_states ops r ≠ [] := by
  cases ops <;> simp [run_states]

/-- The last state of `run_states` is the fold of the operations. -/
theorem run_states_getLast? (ops : List (ValidationResult → ValidationResult))
    (r : ValidationResult) :
    (run_states ops r).getLast? = some (ops.foldl (fun r f => f r) r) := by
  induction ops generalizing r with
  | nil => simp [run_states]
  | cons f fs ih =>
    rcases hfs : run_states fs (f r) with _ | ⟨x, xs⟩
    · exact absurd hfs (run_states_ne_nil fs (f r))
    · simp only [run_states, hfs, List.getLast?_cons_cons, List.foldl_cons]
      rw [← hfs, ih]

/-- `validate_config` is the fold of its operation sequence over the fresh
result. -/
theorem validate_config_eq_foldl_ops (raw : List Violation) (ct : ConfigType)
    (p : String) :
    validate_config raw ct p =
      (validate_ops raw).foldl (fun r f => f r) (ValidationResult.init ct p) := by
  simp only [validate_config, validate_ops]
  by_cases h : (ConfigSchemaValidator.validate raw).isEmpty <;>
    simp [h, List.foldl_append, List.foldl_map]

/-- Consecutive states of an `add_error` chain never leave invalid. -/
theorem chain_run_states_add_error (l : List Violation) (r : ValidationResult) :
    List.Chain'
      (fun a b => a.status = ValidationStatus.invalid → b.status = ValidationStatus.invalid)
      (run_states (l.map fun e => fun r => r.add_error (render_error e)) r) := by
  induction l generalizing r with
  | nil => simp [run_states]
  | cons e es ih =>
    simp only [List.map_cons, run_states]
    rw [List.chain'_cons']
    refine ⟨?_, ih _⟩
    intro y hy
    rw [run_states_head?] at hy
    simp only [Option.mem_def, Option.some.injEq] at hy
    subst hy
    intro _
    simp [ValidationResult.add_error]

/-! ## C9 -/

/-- C9: `check_security_requirements` only appends to `security_warnings`;
`status`, `errors`, `config_type` and `config_path` are unchanged, and the
appended warnings `security_warnings_for r.config_type config` depend only
on the config value and the result's config type. -/
theorem c9_check_security_frame (config : JValue) (r : ValidationResult) :
    check_security_requirements config r =
      { r with security_warnings :=
          r.security_warnings ++ security_warnings_for r.config_type config } :=
  check_security_requirements_spec config r

/-! ## C1 -/

/-- C1: along the validation pipeline — construction, each `add_error`, the
final `mark_as_valid`, and the subsequent `check_security_requirements` —
every produced `ValidationResult` state has non-empty `errors` iff its
`status` is invalid. -/
theorem c1_errors_nonempty_iff_invalid (raw : List Violation) (ct : ConfigType)
    (p : String) (config : JValue) :
    (∀ s ∈ run_states (validate_ops raw) (ValidationResult.init ct p),
        (s.errors ≠ [] ↔ s.status = ValidationStatus.invalid)) ∧
    ((check_security_requirements config (validate_config raw ct p)).errors ≠ [] ↔
      (check_security_requirements config (validate_config raw ct p)).status =
        ValidationStatus.invalid) := by
  constructor
  · intro s hs
    simp only [validate_ops] at hs
    by_cases h : (ConfigSchemaValidator.validate raw).isEmpty
    · rw [List.isEmpty_iff] at h
      simp [h, run_states] at hs
      rcases hs with rfl | rfl
      · simp [ValidationResult.init]
      · simp [ValidationResult.init, ValidationResult.mark_as_valid]
    · simp only [h, if_neg, Bool.false_eq_true, not_false_eq_true,
        List.append_nil, if_false] at hs
      exact mem_run_states_add_error (by simp [ValidationResult.init]) hs
  · rw [check_security_requirements_spec]
    show (validate_config raw ct p).errors ≠ [] ↔
      (validate_config raw ct p).status = ValidationStatus.invalid
    rw [validate_config_errors, validate_config_status]
    by_cases h : (ConfigSchemaValidator.validate raw).isEmpty
    · simp [List.isEmpty_iff.mp h]
    · simp only [Bool.not_eq_true] at h
      have h2 : ConfigSchemaValidator.validate raw ≠ [] := by
        intro hc
        rw [hc] at h
        simp at h
      simp [h, h2]

/-- Witness for C1 at a concrete run: one violation at the root of a
network config. -/
theorem c1_witness :
    (((ValidationResult.init ConfigType.network "cfg").errors ≠ [] ↔
        (ValidationResult.init ConfigType.network "cfg").status = ValidationStatus.invalid)) ∧
    ((check_security_requirements (JValue.obj [])
        (validate_config [⟨[], "boom"⟩] ConfigType.network "cfg")).errors ≠ [] ↔
      (check_security_requirements (JValue.obj [])
        (validate_config [⟨[], "boom"⟩] ConfigType.network "cfg")).status =
        ValidationStatus.invalid) :=
  ⟨(c1_errors_nonempty_iff_invalid [⟨[], "boom"⟩] ConfigType.network "cfg"
      (JValue.obj [])).1 (ValidationResult.init ConfigType.network "cfg") (by decide),
   (c1_errors_nonempty_iff_invalid [⟨[], "boom"⟩] ConfigType.network "cfg"
      (JValue.obj [])).2⟩

/-! ## C4 -/

/-- C4 counterexample: `mark_as_valid` applied to a result whose status is
already invalid does set the status back to valid — the operation itself
has no guard. -/
theorem c4_counterexample :
    (((ValidationResult.init ConfigType.network "cfg").add_error "e").status =
        ValidationStatus.invalid) ∧
    ((((ValidationResult.init ConfigType.network "cfg").add_error "e").mark_as_valid).status =
        ValidationStatus.valid) :=
  ⟨rfl, rfl⟩

/-- C4 amended: within the pipeline of `validate_config` — which calls
`mark_as_valid` only when no error was added — the status never transitions
from invalid back to valid along the sequence of intermediate states, whose
last element is the function's result. -/
theorem c4_no_revert_in_pipeline (raw : List Violation) (ct : ConfigType) (p : String) :
    List.Chain'
      (fun a b => a.status = ValidationStatus.invalid → b.status = ValidationStatus.invalid)
      (run_states (validate_ops raw) (ValidationResult.init ct p)) ∧
    (run_states (validate_ops raw) (ValidationResult.init ct p)).getLast? =
      some (validate_config raw ct p) := by
  constructor
  · simp only [validate_ops]
    by_cases h : (ConfigSchemaValidator.validate raw).isEmpty
    · rw [List.isEmpty_iff] at h
      simp only [h, List.map_nil, List.nil_append, List.isEmpty_nil, if_pos, run_states]
      rw [List.chain'_cons']
      refine ⟨?_, by simp⟩
      intro y hy
      simp only [List.head?_cons, Option.mem_def, Option.some.injEq] at hy
      subst hy
      intro hinv
      exact absurd hinv (by simp [ValidationResult.init])
    · simp only [h, Bool.false_eq_true, if_false, List.append_nil]
      exact chain_run_states_add_error _ _
  · rw [run_states_getLast?, validate_config_eq_foldl_ops]

/-! ## C6 -/

/-- C6: a violation renders as `"Error at "`, the path segments joined by
`" -> "`, then `": "` and the message; the empty (root) path renders as
`"Error at : "` followed by the message. -/
theorem c6_render_error (e : Violation) :
    (render_error e =
      "Error at " ++ String.intercalate " -> " (e.path.map PathSeg.toStr) ++ ": " ++
        e.message) ∧
    (e.path = [] → render_error e = "Error at : " ++ e.message) := by
  refine ⟨rfl, ?_⟩
  intro h
  unfold render_error
  rw [h]
  rfl

/-- Witness for C6 at the root-path violation with message `"m"`. -/
theorem c6_render_error_witness :
    (render_error ⟨[], "m"⟩ =
      "Error at " ++ String.intercalate " -> " (([] : List PathSeg).map PathSeg.toStr) ++
        ": " ++ "m") ∧
    render_error ⟨[], "m"⟩ = "Error at : " ++ "m" :=
  ⟨(c6_render_error ⟨[], "m"⟩).1, (c6_render_error ⟨[], "m"⟩).2 rfl⟩

/-! ## C7 -/

/-- C7: for a domains config, a HSTS warning is emitted exactly when
`ssl.hsts_enabled` is falsy or absent, and independently an OCSP warning
exactly when `ssl.ocsp_stapling` is falsy or absent; `{"ssl": {}}` yields
exactly those two warnings. -/
theorem c7_domains_warnings (config : JValue) (p : String) :
    (("HSTS is not enabled" ∈
        (check_security_requirements config
          (ValidationResult.init ConfigType.domains p)).security_warnings) ↔
      truthy_opt ((config.get_d "ssl" (JValue.obj [])).get_opt "hsts_enabled") = false) ∧
    (("OCSP stapling is not enabled" ∈
        (check_security_requirements config
          (ValidationResult.init ConfigType.domains p)).security_warnings) ↔
      truthy_opt ((config.get_d "ssl" (JValue.obj [])).get_opt "ocsp_stapling") = false) ∧
    (check_security_requirements domains_ssl_empty
        (ValidationResult.init ConfigType.domains p)).security_warnings =
      ["HSTS is not enabled", "OCSP stapling is not enabled"] := by
  have hw : ∀ c : JValue,
      (check_security_requirements c
        (ValidationResult.init ConfigType.domains p)).security_warnings =
        security_warnings_for ConfigType.domains c := by
    intro c
    rw [check_security_requirements_spec]
    rfl
  refine ⟨?_, ?_, ?_⟩
  · rw [hw]
    cases h1 : truthy_opt ((config.get_d "ssl" (JValue.obj [])).get_opt "hsts_enabled") <;>
      cases h2 : truthy_opt ((config.get_d "ssl" (JValue.obj [])).get_opt "ocsp_stapling") <;>
      simp [security_warnings_for, h1, h2]
  · rw [hw]
    cases h1 : truthy_opt ((config.get_d "ssl" (JValue.obj [])).get_opt "hsts_enabled") <;>
      cases h2 : truthy_opt ((config.get_d "ssl" (JValue.obj [])).get_opt "ocsp_stapling") <;>
      simp [security_warnings_for, h1, h2]
  · rw [hw]
    rfl

/-! ## C8 -/

/-- C8: for an sso config, the session-lifetime warning is emitted exactly
when `authentication.session.lifetime` (0 when absent) is strictly greater
than 86400; lifetime 90000 with MFA enabled yields exactly that one
warning, lifetime 3600 with MFA enabled yields none. -/
theorem c8_sso_session_warning (config : JValue) (p : String) (n : Int)
    (h : (session_lifetime_field config = none ∧ n = 0) ∨
      session_lifetime_field config = some (JValue.num n)) :
    (("Session lifetime exceeds 24 hours" ∈
        (check_security_requirements config
          (ValidationResult.init ConfigType.sso p)).security_warnings) ↔ 86400 < n) ∧
    (check_security_requirements sso_lifetime_90000
        (ValidationResult.init ConfigType.sso p)).security_warnings =
      ["Session lifetime exceeds 24 hours"] ∧
    (check_security_requirements sso_lifetime_3600
        (ValidationResult.init ConfigType.sso p)).security_warnings = [] := by
  have hw : ∀ c : JValue,
      (check_security_requirements c
        (ValidationResult.init ConfigType.sso p)).security_warnings =
        security_warnings_for ConfigType.sso c := by
    intro c
    rw [check_security_requirements_spec]
    rfl
  refine ⟨?_, by rw [hw]; rfl, by rw [hw]; rfl⟩
  rw [hw]
  have hgd : ((config.get_d "authentication" (JValue.obj [])).get_d "session"
      (JValue.obj [])).get_d "lifetime" (JValue.num 0) =
      (session_lifetime_field config).getD (JValue.num 0) := rfl
  simp only [security_warnings_for, List.mem_append]
  rcases h with ⟨h0, rfl⟩ | h0
  · rw [hgd, h0]
    cases hmfa : truthy_opt (((config.get_d "authentication" (JValue.obj [])).get_d
        "mfa" (JValue.obj [])).get_opt "enabled") <;>
      simp [hmfa]
  · rw [hgd, h0]
    cases hmfa : truthy_opt (((config.get_d "authentication" (JValue.obj [])).get_d
        "mfa" (JValue.obj [])).get_opt "enabled") <;>
      by_cases hn : (86400 : Int) < n <;>
      simp [hmfa, hn]

/-- Witness for C8 at the two spec scenarios (lifetime 90000). -/
theorem c8_sso_session_warning_witness :
    (("Session lifetime exceeds 24 hours" ∈
        (check_security_requirements sso_lifetime_90000
          (ValidationResult.init ConfigType.sso "p")).security_warnings) ↔
      (86400 : Int) < 90000) ∧
    (check_security_requirements sso_lifetime_90000
        (ValidationResult.init ConfigType.sso "p")).security_warnings =
      ["Session lifetime exceeds 24 hours"] ∧
    (check_security_requirements sso_lifetime_3600
        (ValidationResult.init ConfigType.sso "p")).security_warnings = [] :=
  c8_sso_session_warning sso_lifetime_90000 "p" 90000 (Or.inr rfl)

/-! ## The `main` loop -/

/-- When no file is malformed, the loop runs to its end: it accumulates one
processed result per parsed file, never aborts, and exits 0 iff all results
are valid. -/
theorem main_loop_no_malformed (V : ConfigType → JValue → List Violation)
    (cd : String) (files : ConfigType → FileState) :
    ∀ (ts : List ConfigType) (acc : List ValidationResult),
      (∀ t ∈ ts, files t ≠ FileState.malformed) →
      main_loop V cd files ts acc =
        { exit_code :=
            if (acc ++ processed_results V cd files ts).all ValidationResult.is_valid
            then 0 else 1
          results := acc ++ processed_results V cd files ts
          aborted := false } := by
  intro ts
  induction ts with
  | nil =>
    intro acc h
    simp [main_loop, processed_results]
  | cons t ts ih =>
    intro acc h
    have ht := h t (by simp)
    have hts : ∀ u ∈ ts, files u ≠ FileState.malformed :=
      fun u hu => h u (List.mem_cons_of_mem _ hu)
    cases hf : files t with
    | missing =>
      simp only [main_loop, hf]
      rw [ih acc hts]
      simp [processed_results, List.filterMap_cons, hf]
    | malformed => exact absurd hf ht
    | parsed cfg =>
      simp only [main_loop, hf]
      rw [ih _ hts]
      simp [processed_results, List.filterMap_cons, hf]

/-- When some file in the remaining types is malformed, the loop exits 1 on
the spot: only parsed files strictly before the first malformed one
contribute results. -/
theorem main_loop_malformed (V : ConfigType → JValue → List Violation)
    (cd : String) (files : ConfigType → FileState) :
    ∀ (ts : List ConfigType) (acc : List ValidationResult),
      (∃ t ∈ ts, files t = FileState.malformed) →
      main_loop V cd files ts acc =
        { exit_code := 1
          results := acc ++ processed_results V cd files
            (ts.takeWhile fun t => !(files t).is_malformed)
          aborted := true } := by
  intro ts
  induction ts with
  | nil =>
    intro acc h
    simp at h
  | cons t ts ih =>
    intro acc h
    cases hf : files t with
    | malformed =>
      simp only [main_loop, hf]
      simp [List.takeWhile_cons, hf, FileState.is_malformed, processed_results]
    | missing =>
      obtain ⟨u, hu, hmal⟩ := h
      have hu2 : u ∈ ts := by
        rcases List.mem_cons.mp hu with rfl | h2
        · rw [hf] at hmal
          cases hmal
        · exact h2
      simp only [main_loop, hf]
      rw [ih acc ⟨u, hu2, hmal⟩]
      simp [List.takeWhile_cons, hf, FileState.is_malformed, processed_results,
        List.filterMap_cons]
    | parsed cfg =>
      obtain ⟨u, hu, hmal⟩ := h
      have hu2 : u ∈ ts := by
        rcases List.mem_cons.mp hu with rfl | h2
        · rw [hf] at hmal
          cases hmal
        · exact h2
      simp only [main_loop, hf]
      rw [ih _ ⟨u, hu2, hmal⟩]
      simp [List.takeWhile_cons, hf, FileState.is_malformed, processed_results,
        List.filterMap_cons]

/-! ## C5 -/

/-- C5: with no malformed file, missing types are skipped and every other
type is validated — the results are exactly one per parsed file in order —
the run is not aborted, and the exit code is 0 iff every processed
document is valid, 1 iff some processed document is invalid; skipped types
contribute nothing. -/
theorem c5_missing_skipped (V : ConfigType → JValue → List Violation)
    (cd : String) (files : ConfigType → FileState)
    (h : ∀ t, files t ≠ FileState.malformed) :
    (main_run V cd files).aborted = false ∧
    (main_run V cd files).results = processed_results V cd files config_types ∧
    ((main_run V cd files).exit_code = 0 ↔
      ∀ r ∈ (main_run V cd files).results, r.is_valid = true) ∧
    ((main_run V cd files).exit_code = 1 ↔
      ∃ r ∈ (main_run V cd files).results, r.is_valid = false) := by
  unfold main_run
  rw [main_loop_no_malformed V cd files config_types [] (fun t _ => h t)]
  simp only [List.nil_append]
  refine ⟨trivial, trivial, ?_, ?_⟩
  · show (if (processed_results V cd files config_types).all ValidationResult.is_valid
        then (0 : Nat) else 1) = 0 ↔
      ∀ r ∈ processed_results V cd files config_types, r.is_valid = true
    by_cases hb : (processed_results V cd files config_types).all
        ValidationResult.is_valid = true
    · rw [if_pos hb]
      constructor
      · intro _
        exact List.all_eq_true.mp hb
      · intro _
        rfl
    · rw [if_neg hb]
      constructor
      · intro h10
        exact absurd h10 (by decide)
      · intro hall
        exact absurd (List.all_eq_true.mpr hall) hb
  · show (if (processed_results V cd files config_types).all ValidationResult.is_valid
        then (0 : Nat) else 1) = 1 ↔
      ∃ r ∈ processed_results V cd files config_types, r.is_valid = false
    by_cases hb : (processed_results V cd files config_types).all
        ValidationResult.is_valid = true
    · rw [if_pos hb]
      constructor
      · intro h01
        exact absurd h01 (by decide)
      · rintro ⟨r, hr, hrv⟩
        have hv := List.all_eq_true.mp hb r hr
        rw [hv] at hrv
        cases hrv
    · rw [if_neg hb]
      constructor
      · intro _
        obtain ⟨r, hr, hrv⟩ := List.all_eq_false.mp (Bool.not_eq_true _ ▸ hb)
        exact ⟨r, hr, Bool.not_eq_true _ ▸ hrv⟩
      · intro _
        rfl

/-- Witness for C5 with every template missing: no abort, no results, exit
code 0. -/
theorem c5_missing_skipped_witness :
    (main_run no_violations "" files_all_missing).aborted = false ∧
    (main_run no_violations "" files_all_missing).results =
      processed_results no_violations "" files_all_missing config_types ∧
    ((main_run no_violations "" files_all_missing).exit_code = 0 ↔
      ∀ r ∈ (main_run no_violations "" files_all_missing).results, r.is_valid = true) ∧
    ((main_run no_violations "" files_all_missing).exit_code = 1 ↔
      ∃ r ∈ (main_run no_violations "" files_all_missing).results, r.is_valid = false) :=
  c5_missing_skipped no_violations "" files_all_missing
    (fun _ h => FileState.noConfusion h)

/-! ## C10 -/

/-- C10: when every configuration file is missing no document is processed,
the run completes without aborting and exits with code 0. -/
theorem c10_all_missing_exits_zero (V : ConfigType → JValue → List Violation)
    (cd : String) :
    main_run V cd files_all_missing =
      { exit_code := 0, results := [], aborted := false } :=
  rfl

/-! ## C3 -/

/-- C3 counterexample: with the email template malformed and every other
template parsed, the run exits 1 immediately — the domains and sso types,
though present and parseable, are never processed, contradicting the
claim that the remaining types are still processed. -/
theorem c3_counterexample :
    ¬ ((∃ t, files_email_malformed t = FileState.malformed) →
      ((main_run no_violations "" files_email_malformed).exit_code = 1 ∧
        ∀ t cfg, files_email_malformed t = FileState.parsed cfg →
          ∃ r ∈ (main_run no_violations "" files_email_malformed).results,
            r.config_type = t)) := by
  intro h
  obtain ⟨-, hall⟩ := h ⟨ConfigType.email, rfl⟩
  obtain ⟨r, hr, hct⟩ := hall ConfigType.domains (JValue.obj []) rfl
  have hres : (main_run no_violations "" files_email_malformed).results.map
      (fun r => r.config_type) = [ConfigType.network] := rfl
  have hmem : r.config_type ∈ [ConfigType.network] :=
    hres ▸ List.mem_map_of_mem (fun r => r.config_type) hr
  rw [hct] at hmem
  simp at hmem

/-- C3 amended: a malformed configuration file makes the run exit 1 at that
point — the exit code reflects the failure — but the loop is aborted: only
the parsed types strictly before the first malformed one have been
processed, and the malformed type and all later types are not validated. -/
theorem c3_malformed_aborts (V : ConfigType → JValue → List Violation)
    (cd : String) (files : ConfigType → FileState)
    (h : ∃ t ∈ config_types, files t = FileState.malformed) :
    main_run V cd files =
      { exit_code := 1
        results := processed_results V cd files
          (config_types.takeWhile fun t => !(files t).is_malformed)
        aborted := true } := by
  unfold main_run
  rw [main_loop_malformed V cd files config_types [] h]
  simp

/-- Witness for C3 (amended) at the email-malformed environment. -/
theorem c3_malformed_aborts_witness :
    main_run no_violations "" files_email_malformed =
      { exit_code := 1
        results := processed_results no_violations "" files_email_malformed
          (config_types.takeWhile fun t => !(files_email_malformed t).is_malformed)
        aborted := true } :=
  c3_malformed_aborts no_violations "" files_email_malformed
    ⟨ConfigType.email, by decide, rfl⟩

/-! ## The path order -/

/-- A segment never compares below itself. -/
theorem pathSeg_lt_irrefl (a : PathSeg) : PathSeg.lt a a = false := by
  cases a <;> simp only [PathSeg.lt, decide_eq_false_iff_not] <;> exact lt_irrefl _

/-- The segment order is asymmetric. -/
theorem pathSeg_lt_asymm {a b : PathSeg} (h : PathSeg.lt a b = true) :
    PathSeg.lt b a = false := by
  cases a <;> cases b <;>
    simp_all only [PathSeg.lt, decide_eq_true_eq, decide_eq_false_iff_not] <;>
    exact lt_asymm h

/-- The segment order is transitive. -/
theorem pathSeg_lt_trans {a b c : PathSeg} (h1 : PathSeg.lt a b = true)
    (h2 : PathSeg.lt b c = true) : PathSeg.lt a c = true := by
  cases a <;> cases b <;> cases c <;>
    simp_all only [PathSeg.lt, decide_eq_true_eq] <;>
    first
      | exact lt_trans h1 h2
      | cases h1
      | cases h2

/-- Two distinct segments compare one way or the other. -/
theorem pathSeg_lt_connex {a b : PathSeg} (h : a ≠ b) :
    PathSeg.lt a b = true ∨ PathSeg.lt b a = true := by
  cases a <;> cases b <;>
    simp_all only [PathSeg.lt, ne_eq, PathSeg.str.injEq, PathSeg.idx.injEq,
      decide_eq_true_eq] <;>
    first
      | exact Or.inl rfl
      | exact Or.inr rfl
      | exact Or.inl trivial
      | exact Or.inr trivial
      | exact lt_or_gt_of_ne h

/-- A path never compares below itself. -/
theorem pathLt_irrefl (p : List PathSeg) : pathLt p p = false := by
  induction p with
  | nil => rfl
  | cons a as ih => simp [pathLt, pathSeg_lt_irrefl, ih]

/-- The path order is asymmetric. -/
theorem pathLt_asymm : ∀ {p q : List PathSeg}, pathLt p q = true → pathLt q p = false := by
  intro p
  induction p with
  | nil =>
    intro q h
    cases q with
    | nil => cases h
    | cons b bs => rfl
  | cons a as ih =>
    intro q h
    cases q with
    | nil => cases h
    | cons b bs =>
      simp only [pathLt, Bool.or_eq_true, Bool.and_eq_true, decide_eq_true_eq] at h
      rcases h with h1 | ⟨rfl, h2⟩
      · by_cases hba : b = a
        · subst hba
          exact absurd h1 (by simp [pathSeg_lt_irrefl])
        · simp [pathLt, pathSeg_lt_asymm h1, hba]
      · simp [pathLt, pathSeg_lt_irrefl, ih h2]

/-- The path order is transitive. -/
theorem pathLt_trans : ∀ {p q r : List PathSeg},
    pathLt p q = true → pathLt q r = true → pathLt p r = true := by
  intro p
  induction p with
  | nil =>
    intro q r h1 h2
    cases q with
    | nil => cases h1
    | cons b bs =>
      cases r with
      | nil => cases h2
      | cons c cs => rfl
  | cons a as ih =>
    intro q r h1 h2
    cases q with
    | nil => cases h1
    | cons b bs =>
      cases r with
      | nil => cases h2
      | cons c cs =>
        simp only [pathLt, Bool.or_eq_true, Bool.and_eq_true, decide_eq_true_eq]
          at h1 h2 ⊢
        rcases h1 with h1 | ⟨rfl, h1⟩
        · rcases h2 with h2 | ⟨rfl, h2⟩
          · exact Or.inl (pathSeg_lt_trans h1 h2)
          · exact Or.inl h1
        · rcases h2 with h2 | ⟨rfl, h2⟩
          · exact Or.inl h2
          · exact Or.inr ⟨rfl, ih h1 h2⟩

/-- Two distinct paths compare one way or the other. -/
theorem pathLt_connex : ∀ {p q : List PathSeg}, p ≠ q →
    pathLt p q = true ∨ pathLt q p = true := by
  intro p
  induction p with
  | nil =>
    intro q h
    cases q with
    | nil => exact absurd rfl h
    | cons b bs => exact Or.inl rfl
  | cons a as ih =>
    intro q h
    cases q with
    | nil => exact Or.inr rfl
    | cons b bs =>
      by_cases hab : a = b
      · subst hab
        have hne : as ≠ bs := fun hc => h (by rw [hc])
        rcases ih hne with h1 | h1
        · exact Or.inl (by simp [pathLt, h1])
        · exact Or.inr (by simp [pathLt, h1])
      · rcases pathSeg_lt_connex hab with h1 | h1
        · exact Or.inl (by simp [pathLt, h1])
        · exact Or.inr (by simp [pathLt, h1])

/-- The non-strict path order is total. -/
theorem pathLe_total (p q : List PathSeg) : pathLe p q = true ∨ pathLe q p = true := by
  unfold pathLe
  by_cases h : pathLt q p = true
  · right
    simp [pathLt_asymm h]
  · left
    rw [Bool.not_eq_true] at h
    simp [h]

/-- The non-strict path order is transitive. -/
theorem pathLe_trans {p q r : List PathSeg} (h1 : pathLe p q = true)
    (h2 : pathLe q r = true) : pathLe p r = true := by
  unfold pathLe at h1 h2 ⊢
  rw [Bool.not_eq_true'] at h1 h2 ⊢
  cases hrp : pathLt r p with
  | false => rfl
  | true =>
    exfalso
    by_cases hqp : q = p
    · subst hqp
      rw [h2] at hrp
      cases hrp
    · rcases pathLt_connex hqp with h3 | h3
      · rw [h1] at h3
        cases h3
      · have h4 := pathLt_trans hrp h3
        rw [h2] at h4
        cases h4

/-! ## Sorting facts for `ConfigSchemaValidator.validate` -/

/-- Inserting a violation is a permutation of consing it. -/
theorem orderedInsertViolation_perm (a : Violation) (l : List Violation) :
    (orderedInsertViolation a l).Perm (a :: l) := by
  induction l with
  | nil => exact List.Perm.refl _
  | cons b bs ih =>
    simp only [orderedInsertViolation]
    split
    · exact List.Perm.refl _
    · exact (List.Perm.cons b ih).trans (List.Perm.swap a b bs)

/-- The sorted output is a permutation of the raw error sequence. -/
theorem validate_perm (raw : List Violation) :
    (ConfigSchemaValidator.validate raw).Perm raw := by
  induction raw with
  | nil => exact List.Perm.refl _
  | cons v vs ih =>
    exact (orderedInsertViolation_perm v _).trans (List.Perm.cons v ih)

/-- Insertion preserves sortedness by the non-strict path order. -/
theorem sorted_orderedInsert {l : List Violation} (a : Violation)
    (hl : l.Pairwise (fun x y => pathLe x.path y.path = true)) :
    (orderedInsertViolation a l).Pairwise (fun x y => pathLe x.path y.path = true) := by
  induction l with
  | nil => simp [orderedInsertViolation]
  | cons b bs ih =>
    rcases List.pairwise_cons.mp hl with ⟨hb, hbs⟩
    simp only [orderedInsertViolation]
    split
    next hab =>
      refine List.pairwise_cons.mpr ⟨?_, hl⟩
      intro x hx
      rcases List.mem_cons.mp hx with rfl | hx
      · exact hab
      · exact pathLe_trans hab (hb x hx)
    next hab =>
      refine List.pairwise_cons.mpr ⟨?_, ih hbs⟩
      intro x hx
      have hx2 := (orderedInsertViolation_perm a bs).mem_iff.mp hx
      rcases List.mem_cons.mp hx2 with rfl | hx2
      · rcases pathLe_total x.path b.path with h1 | h1
        · exact absurd h1 hab
        · exact h1
      · exact hb x hx2

/-- The output of `validate` is sorted by the non-strict path order. -/
theorem sorted_validate (raw : List Violation) :
    (ConfigSchemaValidator.validate raw).Pairwise
      (fun x y => pathLe x.path y.path = true) := by
  induction raw with
  | nil => simp [ConfigSchemaValidator.validate]
  | cons v vs ih => exact sorted_orderedInsert v ih

/-- When no two violations share a path, the sorted output is determined by
the multiset of violations alone: any reordering of the input sorts to the
same list. -/
theorem validate_eq_of_perm_of_distinct_paths {l l2 : List Violation}
    (hd : l.Pairwise (fun a b => a.path ≠ b.path)) (hp : l.Perm l2) :
    ConfigSchemaValidator.validate l = ConfigSchemaValidator.validate l2 := by
  have hdl : (ConfigSchemaValidator.validate l).Pairwise
      (fun a b => a.path ≠ b.path) :=
    ((validate_perm l).pairwise_iff (fun hxy => Ne.symm hxy)).mpr hd
  have hd2 : l2.Pairwise (fun a b => a.path ≠ b.path) :=
    ((hp.pairwise_iff (fun hxy => Ne.symm hxy))).mp hd
  have hdl2 : (ConfigSchemaValidator.validate l2).Pairwise
      (fun a b => a.path ≠ b.path) :=
    ((validate_perm l2).pairwise_iff (fun hxy => Ne.symm hxy)).mpr hd2
  have hpoint : ∀ {a b : Violation},
      pathLe a.path b.path = true ∧ a.path ≠ b.path → pathLt a.path b.path = true := by
    intro a b hab
    rcases pathLt_connex hab.2 with h3 | h3
    · exact h3
    · exact absurd hab.1 (by simp [pathLe, h3])
  haveI : IsAntisymm Violation (fun a b => pathLt a.path b.path = true ∨ a = b) := by
    constructor
    intro a b hab hba
    rcases hab with hab | hab
    · rcases hba with hba | hba
      · exact absurd hba (by simp [pathLt_asymm hab])
      · exact hba.symm
    · exact hab
  have hs1 : (ConfigSchemaValidator.validate l).Pairwise
      (fun a b => pathLt a.path b.path = true ∨ a = b) :=
    ((sorted_validate l).and hdl).imp (fun hab => Or.inl (hpoint hab))
  have hs2 : (ConfigSchemaValidator.validate l2).Pairwise
      (fun a b => pathLt a.path b.path = true ∨ a = b) :=
    ((sorted_validate l2).and hdl2).imp (fun hab => Or.inl (hpoint hab))
  exact List.eq_of_perm_of_sorted
    ((validate_perm l).trans (hp.trans (validate_perm l2).symm)) hs1 hs2

/-! ## C2 -/

/-- C2 counterexample: two violations at the same (root) path. The sort is
stable, so the output order of path-ties follows the validator's iteration
order: the two iteration orders of the same violation set sort to different
lists. -/
theorem c2_counterexample :
    (([⟨[], "a"⟩, ⟨[], "b"⟩] : List Violation).Perm [⟨[], "b"⟩, ⟨[], "a"⟩]) ∧
    ConfigSchemaValidator.validate [⟨[], "a"⟩, ⟨[], "b"⟩] ≠
      ConfigSchemaValidator.validate [⟨[], "b"⟩, ⟨[], "a"⟩] := by
  constructor
  · decide
  · decide

/-- C2 amended: `validate` returns a permutation of the collected
violations, sorted by document path under lexicographic element-wise
comparison with a shorter path before a longer one sharing its prefix; the
output is independent of the validator's iteration order whenever no two
violations share a path (on a shared path the stable sort keeps the
iteration order). -/
theorem c2_validate_sorted (raw : List Violation) :
    (ConfigSchemaValidator.validate raw).Perm raw ∧
    (ConfigSchemaValidator.validate raw).Pairwise
      (fun x y => pathLe x.path y.path = true) ∧
    (∀ raw2 : List Violation, raw.Pairwise (fun a b => a.path ≠ b.path) →
      raw.Perm raw2 →
      ConfigSchemaValidator.validate raw = ConfigSchemaValidator.validate raw2) :=
  ⟨validate_perm raw, sorted_validate raw,
    fun _ hd hp => validate_eq_of_perm_of_distinct_paths hd hp⟩

/-- Witness for C2 (amended) on two distinct-path violations given in the
two possible iteration orders. -/
theorem c2_validate_sorted_witness :
    (ConfigSchemaValidator.validate
      [⟨[PathSeg.idx 1], "x"⟩, ⟨[], "y"⟩]).Perm [⟨[PathSeg.idx 1], "x"⟩, ⟨[], "y"⟩] ∧
    (ConfigSchemaValidator.validate [⟨[PathSeg.idx 1], "x"⟩, ⟨[], "y"⟩]).Pairwise
      (fun x y => pathLe x.path y.path = true) ∧
    ConfigSchemaValidator.validate [⟨[PathSeg.idx 1], "x"⟩, ⟨[], "y"⟩] =
      ConfigSchemaValidator.validate [⟨[], "y"⟩, ⟨[PathSeg.idx 1], "x"⟩] :=
  ⟨(c2_validate_sorted [⟨[PathSeg.idx 1], "x"⟩, ⟨[], "y"⟩]).1,
   (c2_validate_sorted [⟨[PathSeg.idx 1], "x"⟩, ⟨[], "y"⟩]).2.1,
   (c2_validate_sorted [⟨[PathSeg.idx 1], "x"⟩, ⟨[], "y"⟩]).2.2
     [⟨[], "y"⟩, ⟨[PathSeg.idx 1], "x"⟩] (by decide) (by decide)⟩
